import Mathlib

/-!
# Verification of the psilo-text glyph cache

A shallow embedding, in Lean 4, of the psilo-text crate (`src/lib.rs` and
`src/bg.rs`): a demand-populated glyph cache that turns a
`(face_index, glyph_id)` lookup into a location inside a texture atlas.

Modelling conventions:
* The generic `AtlasID`, `AtlasCoords` and handler error types are
  instantiated at `Nat` (the code only ever copies these values around).
* `f32` arithmetic in the geometry planner is embedded as exact rational
  arithmetic (`ℚ`); the `as u32` saturating cast is `Int.toNat`.
* The external MSDF rasterizer (`fdsm`) is embedded as an abstract
  per-face function from glyph id and raster dimensions to pixel bytes:
  the code fills a `sdf_width_int × sdf_height_int` image deterministically
  from the face, the glyph and those dimensions.
* Fallible external calls return `Except`; Rust panics (`expect`,
  `unwrap`, `unreachable!`) are represented by `Option`: a function
  returning `none` models a crashed process.
* The background renderer thread of `bg.rs` is embedded as explicit
  queues: `bgQueue` holds the commands sent to the worker (FIFO),
  `bgResults` the rendered glyphs it has published; `bgStep` runs the
  worker loop body once on the head command.
* The `bg-render` feature is modelled as compiled in (this build has both
  code paths); the runtime `render_in_bg` flag selects the mode, as in
  the code.
-/

namespace PsiloText

/-- A glyph bounding box in font units (`ttf_parser::Rect`, i16 fields). -/
structure GlyphBBox where
  x_min : Int
  y_min : Int
  x_max : Int
  y_max : Int
  deriving DecidableEq

/-- Embedding of `FaceState` (lib.rs:154-164).  The parsed font face is
represented by its observable behaviour: `units_per_em` and the per-glyph
bounding box (`Face::glyph_bounding_box`).  The external MSDF pipeline
(`Shape::load_from_face` / `fdsm::generate_msdf` / `correct_sign_msdf`,
out of scope per the spec) is abstracted by `raster`, a deterministic
function of the glyph id and the raster dimensions. -/
structure FaceState where
  units_per_em : ℚ
  glyph_bbox : Nat → Option GlyphBBox
  border_texels : ℚ
  texels_per_em_x : ℚ
  texels_per_em_y : ℚ
  raster : Nat → Nat → Nat → List Nat

/-- The tuple returned by `FaceState::render_glyph` (lib.rs:175-248):
render-space bounding box, raster dimensions, and the rendered bitmap. -/
structure RenderedGlyph where
  render_x_min : ℚ
  render_y_min : ℚ
  render_x_max : ℚ
  render_y_max : ℚ
  sdf_width_int : Nat
  sdf_height_int : Nat
  bitmap : List Nat
  deriving DecidableEq

/-- Embedding of `FaceState::render_glyph` (lib.rs:175-248).  Returns
`none` when the glyph has no bounding box (no outline).  All real
arithmetic is over `ℚ`; `(x.ceil() as u32)` is `⌈x⌉.toNat` (the Rust
float→int `as` cast saturates at zero for negative values). -/
def FaceState.render_glyph (fs : FaceState) (glyph : Nat)
    (atlas_w atlas_h : Nat) : Option RenderedGlyph :=
  match fs.glyph_bbox glyph with
  | none => none
  | some bbox =>
    let per_em := fs.units_per_em
    let raw_glyph_width : ℚ := ((bbox.x_max - bbox.x_min : Int) : ℚ)
    let raw_glyph_height : ℚ := ((bbox.y_max - bbox.y_min : Int) : ℚ)
    let glyph_width := raw_glyph_width * fs.texels_per_em_x / per_em
    let glyph_height := raw_glyph_height * fs.texels_per_em_y / per_em
    let sdf_width : Int := ⌈glyph_width + fs.border_texels⌉
    let sdf_height : Int := ⌈glyph_height + fs.border_texels⌉
    let sdf_width_int := sdf_width.toNat.min atlas_w
    let sdf_height_int := sdf_height.toNat.min atlas_h
    let bitmap := fs.raster glyph sdf_width_int sdf_height_int
    let half_extra_width :=
      ((sdf_width : ℚ) - glyph_width) / fs.texels_per_em_x * (1/2)
    let half_extra_height :=
      ((sdf_height : ℚ) - glyph_height) / fs.texels_per_em_y * (1/2)
    some {
      render_x_min := (bbox.x_min : ℚ) / per_em - half_extra_width
      render_y_min := (bbox.y_min : ℚ) / per_em - half_extra_height
      render_x_max := (bbox.x_max : ℚ) / per_em + half_extra_width
      render_y_max := (bbox.y_max : ℚ) / per_em + half_extra_height
      sdf_width_int := sdf_width_int
      sdf_height_int := sdf_height_int
      bitmap := bitmap
    }

/-- A write of a PPM file to the filesystem: the side effect performed at
lib.rs:228-234. -/
structure FileWrite where
  path : String
  header : String
  bytes : List Nat
  deriving DecidableEq

/-- Embedding of the filesystem side effect inside `render_glyph`
(lib.rs:228-234): on every successful rasterization the code creates
`/tmp/thing.ppm` and writes a P6 header followed by the bitmap bytes,
calling `unwrap()` on each step.  `fs_ok` models whether the file can be
created and written; `none` models the `unwrap` panic when it cannot. -/
def FaceState.ppm_write_effect (fs : FaceState) (fs_ok : Bool)
    (glyph atlas_w atlas_h : Nat) : Option (List FileWrite) :=
  match fs.render_glyph glyph atlas_w atlas_h with
  | none => some []
  | some r =>
    if fs_ok then
      some [{ path := "/tmp/thing.ppm"
              header := "P6\n" ++ toString r.sdf_width_int ++ " "
                          ++ toString r.sdf_height_int ++ " 255\n"
              bytes := r.bitmap }]
    else none

/-- Modelled from the spec: the external 2-D rectangle bin packer
(`rect_packer::Packer`, out of scope per spec §1; §4.3 and the glossary
specify only that it places variable-size rectangles into a fixed-size
`width × height` container without overlap, and that placement into a
fresh empty bin succeeds whenever the rectangle is no larger than the
bin).  Embedded as a shelf packer: rectangles go left to right on the
current shelf, a new shelf opens below when the current one is full.  An
empty packer (`shelf_x = shelf_y = shelf_h = 0`) accepts `(w, h)` exactly
when `w ≤ width ∧ h ≤ height`. -/
structure Packer where
  width : Nat
  height : Nat
  shelf_x : Nat
  shelf_y : Nat
  shelf_h : Nat
  deriving DecidableEq

/-- One placement step of the modelled packer (`Packer::pack`). -/
def Packer.pack (p : Packer) (w h : Nat) : Option (Nat × Nat × Packer) :=
  if p.shelf_x + w ≤ p.width ∧ p.shelf_y + h ≤ p.height then
    some (p.shelf_x, p.shelf_y,
          { p with shelf_x := p.shelf_x + w, shelf_h := max p.shelf_h h })
  else if w ≤ p.width ∧ p.shelf_y + p.shelf_h + h ≤ p.height then
    some (0, p.shelf_y + p.shelf_h,
          { p with shelf_x := w, shelf_y := p.shelf_y + p.shelf_h,
                   shelf_h := h })
  else none

/-- Embedding of `AtlasState` (lib.rs:126-147): an atlas handle paired
with its packer. -/
structure AtlasState where
  handle : Nat
  packer : Packer
  deriving DecidableEq

/-- Embedding of `AtlasState::new` (lib.rs:132-140): a fresh bin of the given
dimensions with an empty packer. -/
def AtlasState.new (handle w h : Nat) : AtlasState :=
  { handle := handle, packer := { width := w, height := h,
                                  shelf_x := 0, shelf_y := 0, shelf_h := 0 } }

/-- Embedding of `AtlasState::attempt_fit` (lib.rs:141-146).  Mutation of the packer is
modelled by returning the updated `AtlasState` alongside the position. -/
def AtlasState.attempt_fit (s : AtlasState) (w h : Nat) :
    Option (Nat × Nat × AtlasState) :=
  match s.packer.pack w h with
  | none => none
  | some (x, y, p') => some (x, y, { s with packer := p' })

/-- The first-fit scan over existing bins in `put_into_atlas`
(lib.rs:446-453): the first bin whose packer accepts the rectangle wins;
a failed attempt leaves a bin unchanged.  Returns the winning bin's
handle, the position, and the updated bin list. -/
def place_first_fit : List AtlasState → Nat → Nat →
    Option (Nat × Nat × Nat × List AtlasState)
  | [], _, _ => none
  | a :: rest, w, h =>
    match a.attempt_fit w h with
    | some (x, y, a') => some (a.handle, x, y, a' :: rest)
    | none =>
      match place_first_fit rest w h with
      | some (hd, x, y, rest') => some (hd, x, y, a :: rest')
      | none => none

/-- The external `AtlasHandler` (lib.rs:95-119), instantiated at
`AtlasID = AtlasCoords = E = Nat`.  `get_atlas_size` is the constant
`(atlas_w, atlas_h)`; `new_atlas` returns the same outcome at each call
within one embedded call; `add_to_atlas` is a deterministic function of
its arguments. -/
structure HandlerEnv where
  atlas_w : Nat
  atlas_h : Nat
  new_atlas : Except Nat Nat
  add_to_atlas : Nat → ℚ → ℚ → ℚ → ℚ → Nat → Nat → Nat → Nat →
                 List Nat → Except Nat Nat

/-- Observable work performed during a `get_glyph` call, tagged with the
`(face_index, glyph_id)` key it serves: handler calls and rasterizations.
`addToAtlas` records the full argument list of the handler upload. -/
inductive Event where
  | getAtlasSize (key : Nat × Nat)
  | rasterize (key : Nat × Nat)
  | newAtlas (key : Nat × Nat)
  | addToAtlas (key : Nat × Nat) (atlas : Nat)
               (render_x_min render_y_min render_x_max render_y_max : ℚ)
               (x y w h : Nat) (pixels : List Nat)
  deriving DecidableEq

/-- The key an event was performed for. -/
def Event.key : Event → Nat × Nat
  | .getAtlasSize k => k
  | .rasterize k => k
  | .newAtlas k => k
  | .addToAtlas k _ _ _ _ _ _ _ _ _ _ => k

/-- Outcome of `put_into_atlas`: success with the stored glyph state and
updated bin list, a propagated handler error (`?`) with the bin list as
the mutated `&mut Vec` leaves it, or `crash` for the `unreachable!()`
panic at lib.rs:469. -/
inductive PutResult where
  | ok (atlas coords : Nat) (atlases : List AtlasState)
  | err (e : Nat) (atlases : List AtlasState)
  | crash
  deriving DecidableEq

/-- Embedding of `put_into_atlas` (lib.rs:436-483).  First-fit over the
existing bins; if none fits, ask the handler for a new bin of the
declared atlas dimensions, append it, and retry in the fresh bin; the
retry failing is the `unreachable!()` branch.  Also returns the handler
calls performed, tagged with `key`. -/
def put_into_atlas (env : HandlerEnv) (key : Nat × Nat)
    (atlases : List AtlasState) (atlas_w atlas_h : Nat)
    (r : RenderedGlyph) : PutResult × List Event :=
  match place_first_fit atlases r.sdf_width_int r.sdf_height_int with
  | some (handle, x, y, atlases') =>
    let ev := Event.addToAtlas key handle
                r.render_x_min r.render_y_min r.render_x_max r.render_y_max
                x y r.sdf_width_int r.sdf_height_int r.bitmap
    match env.add_to_atlas handle
            r.render_x_min r.render_y_min r.render_x_max r.render_y_max
            x y r.sdf_width_int r.sdf_height_int r.bitmap with
    | .ok coords => (.ok handle coords atlases', [ev])
    | .error e => (.err e atlases', [ev])
  | none =>
    match env.new_atlas with
    | .error e => (.err e atlases, [.newAtlas key])
    | .ok handle =>
      match (AtlasState.new handle atlas_w atlas_h).attempt_fit
              r.sdf_width_int r.sdf_height_int with
      | some (x, y, fresh') =>
        let ev := Event.addToAtlas key handle
                    r.render_x_min r.render_y_min r.render_x_max r.render_y_max
                    x y r.sdf_width_int r.sdf_height_int r.bitmap
        match env.add_to_atlas handle
                r.render_x_min r.render_y_min r.render_x_max r.render_y_max
                x y r.sdf_width_int r.sdf_height_int r.bitmap with
        | .ok coords => (.ok handle coords (atlases ++ [fresh']),
                         [.newAtlas key, ev])
        | .error e => (.err e (atlases ++ [fresh']), [.newAtlas key, ev])
      | none => (.crash, [.newAtlas key])

/-- Embedding of `GlyphStateInCache` (lib.rs:251-256).  `null` is the
`Null` variant (the spec's `Failed`), `pending` the `bg-render`-only
`Pending` variant, `present` carries the stored `GlyphState`. -/
inductive GlyphStateInCache where
  | null
  | pending
  | present (atlas : Nat) (coords : Nat)
  deriving DecidableEq

/-- The glyph cache map `HashMap<(usize, u16), GlyphStateInCache>`,
embedded as an association list. -/
def GlyphMap := List ((Nat × Nat) × GlyphStateInCache)

/-- Lookup on the embedded cache (`HashMap::get`). -/
def lookupGlyph : GlyphMap → (Nat × Nat) → Option GlyphStateInCache
  | [], _ => none
  | (k, v) :: rest, key => if k = key then some v else lookupGlyph rest key

/-- Insert/replace on the embedded cache (`Entry::insert` and
`or_insert_with`'s vacant insertion). -/
def insertGlyph : GlyphMap → (Nat × Nat) → GlyphStateInCache → GlyphMap
  | [], key, v => [(key, v)]
  | (k, w) :: rest, key, v =>
    if k = key then (key, v) :: rest else (k, w) :: insertGlyph rest key v

/-- A rendered-glyph message on the background result channel
(bg.rs:23-24, 52-55): the key plus the `render_glyph` output. -/
structure RasterResult where
  face_index : Nat
  glyph_id : Nat
  rendered : RenderedGlyph
  deriving DecidableEq

/-- A command on the background command channel (bg.rs:10-19). -/
inductive BgCmd where
  | addFace (fs : FaceState)
  | renderGlyph (face_index glyph_id atlas_w atlas_h : Nat)

/-- Embedding of `TextHandler` (lib.rs:268-276) together with the state
of the background renderer (`bg::Renderer`, bg.rs): `bgFaces` is the
worker's private face list, `bgQueue` the commands sent but not yet
processed (FIFO), `bgResults` the rendered glyphs published but not yet
drained (FIFO). -/
structure TextHandler where
  faces : List FaceState
  atlases : List AtlasState
  glyphs : GlyphMap
  bgFaces : List FaceState
  bgQueue : List BgCmd
  bgResults : List RasterResult
  render_in_bg : Bool

/-- Embedding of `TextHandler::new` (lib.rs:279-287): everything empty, background
rendering enabled by default. -/
def TextHandler.init : TextHandler :=
  { faces := [], atlases := [], glyphs := [], bgFaces := [],
    bgQueue := [], bgResults := [], render_in_bg := true }

/-- Embedding of `TextHandler::add_face` (lib.rs:314-327), success path (the parse is
external; a parse failure returns `None` and changes nothing).  The face
is pushed, and a clone is sent to the background worker over the command
channel. -/
def TextHandler.add_face (th : TextHandler) (fs : FaceState) :
    TextHandler × Nat :=
  ({ th with faces := th.faces ++ [fs],
             bgQueue := th.bgQueue ++ [.addFace fs] },
   th.faces.length)

/-- Embedding of `TextHandler::set_render_in_background` (lib.rs:302-305). -/
def TextHandler.set_render_in_background (th : TextHandler) (nu : Bool) :
    TextHandler :=
  { th with render_in_bg := nu }

/-- One iteration of the background worker loop (bg.rs:35-59): process
the head command.  An empty queue means the worker blocks (`recv`), so
nothing happens.  `AddFace` pushes the face copy; `RenderGlyph` renders
(the `expect` on an out-of-range face index is a panic, `none`) and
publishes the result, or publishes nothing when the glyph has no shape
(bg.rs:52: `if let Some(..) = res`). -/
def TextHandler.bgStep (th : TextHandler) : Option TextHandler :=
  match th.bgQueue with
  | [] => some th
  | .addFace fs :: rest =>
    some { th with bgQueue := rest, bgFaces := th.bgFaces ++ [fs] }
  | .renderGlyph f g aw ah :: rest =>
    match th.bgFaces[f]? with
    | none => none
    | some fs =>
      match fs.render_glyph g aw ah with
      | none => some { th with bgQueue := rest }
      | some r =>
        some { th with bgQueue := rest,
                       bgResults := th.bgResults ++ [⟨f, g, r⟩] }

/-- The reconciliation loop at the top of `get_glyph` (lib.rs:342-380):
drain every ready background result.  A result for an absent key is
logged and discarded; for a `Pending` key the glyph is placed and
uploaded (`Present` on success, `Null` on a swallowed handler error); a
result for an already-settled key is logged and discarded.  `none` is
the `unreachable!()` panic reached through `put_into_atlas`. -/
def reconcile (env : HandlerEnv) :
    List RasterResult → GlyphMap → List AtlasState →
    Option (GlyphMap × List AtlasState × List Event)
  | [], gs, atl => some (gs, atl, [])
  | res :: rest, gs, atl =>
    let key := (res.face_index, res.glyph_id)
    match lookupGlyph gs key with
    | none => reconcile env rest gs atl
    | some .pending =>
      match put_into_atlas env key atl env.atlas_w env.atlas_h res.rendered with
      | (.ok a c atl', ev) =>
        (reconcile env rest (insertGlyph gs key (.present a c)) atl').map
          (fun out => (out.1, out.2.1, .getAtlasSize key :: ev ++ out.2.2))
      | (.err _ atl', ev) =>
        (reconcile env rest (insertGlyph gs key .null) atl').map
          (fun out => (out.1, out.2.1, .getAtlasSize key :: ev ++ out.2.2))
      | (.crash, _) => none
    | some _ => reconcile env rest gs atl

/-- Embedding of `TextHandler::get_glyph` (lib.rs:339-433).  Returns
`none` for a panic (`expect` on an out-of-range face index in the
synchronous path, or `unreachable!()` through `put_into_atlas`);
otherwise the `Result` value, the updated state, and the work performed.
Draining leaves `bgResults` empty; a cache hit then answers from the
entry; a miss either dispatches a background job and inserts `Pending`,
or renders synchronously, places, and inserts `Present`/`Null`,
returning the handler error to the caller if the upload failed. -/
def TextHandler.get_glyph (env : HandlerEnv) (th : TextHandler)
    (face glyph : Nat) :
    Option (Except Nat (Option (Nat × Nat)) × TextHandler × List Event) :=
  match reconcile env th.bgResults th.glyphs th.atlases with
  | none => none
  | some (gs1, atl1, ev1) =>
    let key := (face, glyph)
    match lookupGlyph gs1 key with
    | some st =>
      some (.ok (match st with
                 | .null => none
                 | .pending => none
                 | .present a c => some (a, c)),
            { th with glyphs := gs1, atlases := atl1, bgResults := [] },
            ev1)
    | none =>
      if th.render_in_bg then
        some (.ok none,
              { th with glyphs := insertGlyph gs1 key .pending,
                        atlases := atl1, bgResults := [],
                        bgQueue := th.bgQueue ++
                          [.renderGlyph face glyph env.atlas_w env.atlas_h] },
              ev1 ++ [.getAtlasSize key])
      else
        match th.faces[face]? with
        | none => none
        | some fs =>
          match fs.render_glyph glyph env.atlas_w env.atlas_h with
          | none =>
            some (.ok none,
                  { th with glyphs := insertGlyph gs1 key .null,
                            atlases := atl1, bgResults := [] },
                  ev1 ++ [.getAtlasSize key, .rasterize key])
          | some r =>
            match put_into_atlas env key atl1 env.atlas_w env.atlas_h r with
            | (.ok a c atl', ev) =>
              some (.ok (some (a, c)),
                    { th with glyphs := insertGlyph gs1 key (.present a c),
                              atlases := atl', bgResults := [] },
                    ev1 ++ [.getAtlasSize key, .rasterize key] ++ ev)
            | (.err e atl', ev) =>
              some (.error e,
                    { th with glyphs := insertGlyph gs1 key .null,
                              atlases := atl', bgResults := [] },
                    ev1 ++ [.getAtlasSize key, .rasterize key] ++ ev)
            | (.crash, _) => none

/-- An operation on the system: one `get_glyph` call (with the handler
the caller passed for that call), one background-worker iteration, one
face registration, or toggling the background mode. -/
inductive Op where
  | getGlyph (env : HandlerEnv) (face glyph : Nat)
  | bgStep
  | addFace (fs : FaceState)
  | setRenderInBg (b : Bool)

/-- Apply one operation; `none` models a panic. -/
def applyOp (th : TextHandler) : Op → Option TextHandler
  | .getGlyph env f g => (th.get_glyph env f g).map (fun x => x.2.1)
  | .bgStep => th.bgStep
  | .addFace fs => some (th.add_face fs).1
  | .setRenderInBg b => some (th.set_render_in_background b)

/-- The forward-only transition discipline of a cache entry, as one step:
from absent anything may be created; a `Pending` entry may settle but
never disappear; `Null` (`Failed`) and `Present` are terminal, `Present`
keeping its exact `(atlas, coords)` pair. -/
def stepOK : Option GlyphStateInCache → Option GlyphStateInCache → Prop
  | none, _ => True
  | some .pending, after => after ≠ none
  | some .null, after => after = some .null
  | some (.present a c), after => after = some (.present a c)

/-- Number of `RenderGlyph` commands for a given key waiting in the
background command queue. -/
def jobsFor : List BgCmd → (Nat × Nat) → Nat
  | [], _ => 0
  | .addFace _ :: rest, k => jobsFor rest k
  | .renderGlyph f g _ _ :: rest, k =>
    (if (f, g) = k then 1 else 0) + jobsFor rest k

/-- Number of rendered results for a given key waiting in the background
result queue. -/
def resultsFor : List RasterResult → (Nat × Nat) → Nat
  | [], _ => 0
  | res :: rest, k =>
    (if (res.face_index, res.glyph_id) = k then 1 else 0) + resultsFor rest k

/-- Number of background `RenderGlyph` jobs in flight for a key: queued
commands not yet processed plus published results not yet drained. -/
def Inflight (th : TextHandler) (k : Nat × Nat) : Nat :=
  jobsFor th.bgQueue k + resultsFor th.bgResults k

/-- The single-job-in-flight protocol invariant: each key has at most one
background job in flight, and a key with a job in flight is `Pending` in
the cache. -/
def BgInv (th : TextHandler) : Prop :=
  ∀ k, Inflight th k ≤ 1 ∧
       (1 ≤ Inflight th k → lookupGlyph th.glyphs k = some .pending)

/-- The spec §8 numeric fixture: `units_per_em = 1000`, glyph 0 has
bounding box `(100, 0, 600, 700)`, `border_texels = 4`,
`texels_per_em_x = texels_per_em_y = 64`; the abstract rasterizer output
is the empty pixel list. -/
def fixtureFace : FaceState where
  units_per_em := 1000
  glyph_bbox := fun g => if g = 0 then some ⟨100, 0, 600, 700⟩ else none
  border_texels := 4
  texels_per_em_x := 64
  texels_per_em_y := 64
  raster := fun _ _ _ => []

/-- What `render_glyph` produces on the fixture (computed in
`fixtureFace_render_eval`). -/
def rFixture : RenderedGlyph :=
  { render_x_min := 11/160, render_y_min := -21/640,
    render_x_max := 101/160, render_y_max := 469/640,
    sdf_width_int := 36, sdf_height_int := 49, bitmap := [] }

/-- A face whose every glyph has no outline (no bounding box). -/
def noShapeFace : FaceState where
  units_per_em := 1000
  glyph_bbox := fun _ => none
  border_texels := 4
  texels_per_em_x := 64
  texels_per_em_y := 64
  raster := fun _ _ _ => []

/-- A handler whose calls all succeed, with 64×64 atlases. -/
def envTriv : HandlerEnv where
  atlas_w := 64
  atlas_h := 64
  new_atlas := .ok 0
  add_to_atlas := fun _ _ _ _ _ _ _ _ _ _ => .ok 9

/-- A handler whose atlas allocation fails with error code 3. -/
def envErr : HandlerEnv where
  atlas_w := 64
  atlas_h := 64
  new_atlas := .error 3
  add_to_atlas := fun _ _ _ _ _ _ _ _ _ _ => .ok 9

/-- A fresh handler with one registered no-outline face, background mode
on (the state reached from `TextHandler.init` by `add_face noShapeFace`
and one worker iteration). -/
def thB : TextHandler :=
  { faces := [noShapeFace], atlases := [], glyphs := [],
    bgFaces := [noShapeFace], bgQueue := [], bgResults := [],
    render_in_bg := true }

/-- The state `thB` after one `get_glyph` call for key `(0, 0)`: entry `Pending`,
one job queued. -/
def thB1 : TextHandler :=
  { faces := [noShapeFace], atlases := [], glyphs := [((0, 0), .pending)],
    bgFaces := [noShapeFace], bgQueue := [.renderGlyph 0 0 64 64],
    bgResults := [], render_in_bg := true }

/-- The state `thB` in synchronous mode. -/
def thBs : TextHandler :=
  { faces := [noShapeFace], atlases := [], glyphs := [],
    bgFaces := [noShapeFace], bgQueue := [], bgResults := [],
    render_in_bg := false }

/-- A handler state with key `(0, 0)` already resolved to
`Present(5, 7)`. -/
def thPresent : TextHandler :=
  { faces := [noShapeFace], atlases := [], glyphs := [((0, 0), .present 5 7)],
    bgFaces := [noShapeFace], bgQueue := [], bgResults := [],
    render_in_bg := true }

/-- A fresh handler with the fixture face registered, background mode
on. -/
def thFix : TextHandler :=
  { faces := [fixtureFace], atlases := [], glyphs := [],
    bgFaces := [fixtureFace], bgQueue := [], bgResults := [],
    render_in_bg := true }

/-- The state `thFix` in synchronous mode. -/
def thFixS : TextHandler :=
  { faces := [fixtureFace], atlases := [], glyphs := [],
    bgFaces := [fixtureFace], bgQueue := [], bgResults := [],
    render_in_bg := false }

/-! ## Helper lemmas -/

theorem lookup_insert (gs : GlyphMap) (k k' : Nat × Nat)
    (v : GlyphStateInCache) :
    lookupGlyph (insertGlyph gs k v) k' =
      if k' = k then some v else lookupGlyph gs k' := by
  induction gs with
  | nil =>
    by_cases h : k' = k
    · subst h; simp [insertGlyph, lookupGlyph]
    · simp [insertGlyph, lookupGlyph, h, Ne.symm h]
  | cons kv rest ih =>
    obtain ⟨ky, w⟩ := kv
    simp only [insertGlyph]
    by_cases hky : ky = k
    · subst hky
      simp only [if_pos rfl]
      by_cases h : k' = ky
      · subst h; simp [lookupGlyph]
      · simp [lookupGlyph, h, Ne.symm h]
    · simp only [if_neg hky, lookupGlyph]
      by_cases h : ky = k'
      · subst h; simp [hky]
      · simp [h, ih]

theorem lookup_insert_self (gs : GlyphMap) (k : Nat × Nat)
    (v : GlyphStateInCache) :
    lookupGlyph (insertGlyph gs k v) k = some v := by
  simp [lookup_insert]

theorem lookup_insert_ne (gs : GlyphMap) (k k' : Nat × Nat)
    (v : GlyphStateInCache) (h : k' ≠ k) :
    lookupGlyph (insertGlyph gs k v) k' = lookupGlyph gs k' := by
  simp [lookup_insert, h]

theorem put_into_atlas_events_key (env : HandlerEnv) (key : Nat × Nat)
    (atlases : List AtlasState) (aw ah : Nat) (r : RenderedGlyph) :
    ∀ e ∈ (put_into_atlas env key atlases aw ah r).2, Event.key e = key := by
  intro e he
  unfold put_into_atlas at he
  split at he
  · split at he <;> simp at he <;> simp [he, Event.key]
  · split at he
    · simp at he; simp [he, Event.key]
    · split at he
      · split at he <;> simp at he <;>
          rcases he with he | he <;> simp [he, Event.key]
      · simp at he; simp [he, Event.key]

theorem put_into_atlas_ok_event (env : HandlerEnv) (key : Nat × Nat)
    (atlases : List AtlasState) (aw ah : Nat) (r : RenderedGlyph)
    (a c : Nat) (atl' : List AtlasState) (ev : List Event)
    (h : put_into_atlas env key atlases aw ah r = (.ok a c atl', ev)) :
    ∃ x y, Event.addToAtlas key a
             r.render_x_min r.render_y_min r.render_x_max r.render_y_max
             x y r.sdf_width_int r.sdf_height_int r.bitmap ∈ ev := by
  unfold put_into_atlas at h
  split at h
  · rename_i handle x y atlases' hpf
    split at h
    · simp at h
      obtain ⟨⟨rfl, -, -⟩, rfl⟩ := h
      exact ⟨x, y, by simp⟩
    · simp at h
  · split at h
    · simp at h
    · split at h
      · rename_i handle hna x y fresh' hfit
        split at h
        · simp at h
          obtain ⟨⟨rfl, -, -⟩, rfl⟩ := h
          exact ⟨x, y, by simp⟩
        · simp at h
      · simp at h


theorem insert_case_aux (gs gsr : GlyphMap) (key : Nat × Nat)
    (v : GlyphStateInCache) (pev evr : List Event)
    (res : RasterResult) (rest : List RasterResult)
    (hkeydef : key = (res.face_index, res.glyph_id))
    (hl : lookupGlyph gs key = some .pending)
    (hpev : ∀ e ∈ pev, Event.key e = key)
    (ha : ∀ k, stepOK (lookupGlyph (insertGlyph gs key v) k)
                      (lookupGlyph gsr k))
    (hb : ∀ k, lookupGlyph gsr k = none ↔
               lookupGlyph (insertGlyph gs key v) k = none)
    (hc : ∀ k, lookupGlyph (insertGlyph gs key v) k ≠ some .pending →
            lookupGlyph gsr k = lookupGlyph (insertGlyph gs key v) k ∧
            ∀ e ∈ evr, Event.key e ≠ k)
    (hd : ∀ k, resultsFor rest k = 0 →
            lookupGlyph gsr k = lookupGlyph (insertGlyph gs key v) k) :
    (∀ k, stepOK (lookupGlyph gs k) (lookupGlyph gsr k)) ∧
    (∀ k, (lookupGlyph gsr k = none ↔ lookupGlyph gs k = none)) ∧
    (∀ k, lookupGlyph gs k ≠ some .pending →
      lookupGlyph gsr k = lookupGlyph gs k ∧
      ∀ e ∈ (Event.getAtlasSize key :: pev ++ evr), Event.key e ≠ k) ∧
    (∀ k, resultsFor (res :: rest) k = 0 →
      lookupGlyph gsr k = lookupGlyph gs k) := by
  refine ⟨fun k => ?_, fun k => ?_, fun k hk => ?_, fun k hk => ?_⟩
  · by_cases hkk : k = key
    · rw [hkk, hl]
      simp only [stepOK]
      intro hnone
      have h2 := (hb key).mp hnone
      rw [lookup_insert_self] at h2
      exact Option.noConfusion h2
    · have := ha k
      rwa [lookup_insert_ne gs key k v hkk] at this
  · by_cases hkk : k = key
    · rw [hkk, hl]
      constructor
      · intro hnone
        have h2 := (hb key).mp hnone
        rw [lookup_insert_self] at h2
        exact Option.noConfusion h2
      · intro hcontra
        exact Option.noConfusion hcontra
    · rw [hb k, lookup_insert_ne gs key k v hkk]
  · have hkk : k ≠ key := fun e => hk (e ▸ hl)
    obtain ⟨h1, h2⟩ := hc k (by rw [lookup_insert_ne gs key k v hkk]; exact hk)
    refine ⟨by rw [h1, lookup_insert_ne gs key k v hkk], ?_⟩
    intro e he
    simp only [List.cons_append, List.mem_cons, List.mem_append] at he
    rcases he with rfl | he | he
    · simpa [Event.key] using Ne.symm hkk
    · rw [hpev e he]; exact Ne.symm hkk
    · exact h2 e he
  · have hind : ¬ ((res.face_index, res.glyph_id) = k) := by
      intro hcontra
      simp only [resultsFor, if_pos hcontra] at hk
      omega
    have hkk : k ≠ key := fun hcontra => hind (by rw [← hkeydef, hcontra])
    have hrest : resultsFor rest k = 0 := by
      simp only [resultsFor, if_neg hind] at hk
      omega
    rw [hd k hrest, lookup_insert_ne gs key k v hkk]

theorem reconcile_spec (env : HandlerEnv) (results : List RasterResult) :
    ∀ (gs : GlyphMap) (atl : List AtlasState) (gs' : GlyphMap)
      (atl' : List AtlasState) (ev : List Event),
      reconcile env results gs atl = some (gs', atl', ev) →
      (∀ k, stepOK (lookupGlyph gs k) (lookupGlyph gs' k)) ∧
      (∀ k, (lookupGlyph gs' k = none ↔ lookupGlyph gs k = none)) ∧
      (∀ k, lookupGlyph gs k ≠ some .pending →
        lookupGlyph gs' k = lookupGlyph gs k ∧ ∀ e ∈ ev, Event.key e ≠ k) ∧
      (∀ k, resultsFor results k = 0 →
        lookupGlyph gs' k = lookupGlyph gs k) := by
  induction results with
  | nil =>
    intro gs atl gs' atl' ev h
    simp only [reconcile, Option.some.injEq, Prod.mk.injEq] at h
    obtain ⟨rfl, rfl, rfl⟩ := h
    refine ⟨fun k => ?_, fun k => Iff.rfl, fun k _ => ⟨rfl, by simp⟩,
            fun k _ => rfl⟩
    cases hl : lookupGlyph gs k with
    | none => trivial
    | some st => cases st <;> simp [stepOK]
  | cons res rest ih =>
    intro gs atl gs' atl' ev h
    simp only [reconcile] at h
    cases hl : lookupGlyph gs (res.face_index, res.glyph_id) with
    | none =>
      rw [hl] at h
      obtain ⟨ha, hb, hc, hd⟩ := ih gs atl gs' atl' ev h
      refine ⟨ha, hb, hc, fun k hk => ?_⟩
      have hind : ¬ ((res.face_index, res.glyph_id) = k) := by
        intro hcontra
        simp only [resultsFor, if_pos hcontra] at hk
        omega
      apply hd
      simp only [resultsFor, if_neg hind] at hk
      omega
    | some st =>
      rw [hl] at h
      cases st with
      | pending =>
        simp only at h
        rcases hput : put_into_atlas env (res.face_index, res.glyph_id) atl
            env.atlas_w env.atlas_h res.rendered with ⟨pr, pev⟩
        rw [hput] at h
        have hpev : ∀ e ∈ pev, Event.key e = (res.face_index, res.glyph_id) := by
          intro e he
          have hall := put_into_atlas_events_key env (res.face_index, res.glyph_id)
            atl env.atlas_w env.atlas_h res.rendered e
          rw [hput] at hall
          exact hall he
        cases pr with
        | crash => simp at h
        | ok a c atlmid =>
          simp only [Option.map_eq_some'] at h
          obtain ⟨out, hout, hfeq⟩ := h
          obtain ⟨gsr, atlr, evr⟩ := out
          simp only [Prod.mk.injEq] at hfeq
          obtain ⟨rfl, rfl, rfl⟩ := hfeq
          obtain ⟨ha, hb, hc, hd⟩ := ih _ _ _ _ _ hout
          exact insert_case_aux gs gsr (res.face_index, res.glyph_id)
            (.present a c) pev evr res rest rfl hl hpev ha hb hc hd
        | err e0 atlmid =>
          simp only [Option.map_eq_some'] at h
          obtain ⟨out, hout, hfeq⟩ := h
          obtain ⟨gsr, atlr, evr⟩ := out
          simp only [Prod.mk.injEq] at hfeq
          obtain ⟨rfl, rfl, rfl⟩ := hfeq
          obtain ⟨ha, hb, hc, hd⟩ := ih _ _ _ _ _ hout
          exact insert_case_aux gs gsr (res.face_index, res.glyph_id)
            .null pev evr res rest rfl hl hpev ha hb hc hd
      | null =>
        simp only at h
        obtain ⟨ha, hb, hc, hd⟩ := ih gs atl gs' atl' ev h
        refine ⟨ha, hb, hc, fun k hk => ?_⟩
        have hind : ¬ ((res.face_index, res.glyph_id) = k) := by
          intro hcontra
          simp only [resultsFor, if_pos hcontra] at hk
          omega
        apply hd
        simp only [resultsFor, if_neg hind] at hk
        omega
      | present a c =>
        simp only at h
        obtain ⟨ha, hb, hc, hd⟩ := ih gs atl gs' atl' ev h
        refine ⟨ha, hb, hc, fun k hk => ?_⟩
        have hind : ¬ ((res.face_index, res.glyph_id) = k) := by
          intro hcontra
          simp only [resultsFor, if_pos hcontra] at hk
          omega
        apply hd
        simp only [resultsFor, if_neg hind] at hk
        omega

theorem stepOK_insert_of_vacant (gs gs1 : GlyphMap) (key : Nat × Nat)
    (v : GlyphStateInCache)
    (ha : ∀ k, stepOK (lookupGlyph gs k) (lookupGlyph gs1 k))
    (hb : ∀ k, lookupGlyph gs1 k = none ↔ lookupGlyph gs k = none)
    (hvac : lookupGlyph gs1 key = none) (k : Nat × Nat) :
    stepOK (lookupGlyph gs k) (lookupGlyph (insertGlyph gs1 key v) k) := by
  by_cases hkk : k = key
  · rw [hkk, (hb key).mp hvac]
    simp [stepOK]
  · rw [lookup_insert_ne gs1 key k v hkk]
    exact ha k

/-! ## Claim theorems -/

/-- C2: for every cache key and every operation on the `TextHandler`
(any `get_glyph` call with any handler, a background-worker step, a face
registration, or toggling the mode), the key's cache entry only ever
moves forward along absent → (`Pending` →) `Present`/`Failed`: a
`Pending` entry never disappears, and `Present` (with its exact stored
pair) and `Failed` are terminal.  Applied along any operation sequence
this gives the spec's never-regressing state machine. -/
theorem cache_entry_forward_only (th : TextHandler) (op : Op)
    (th' : TextHandler) (h : applyOp th op = some th') (k : Nat × Nat) :
    stepOK (lookupGlyph th.glyphs k) (lookupGlyph th'.glyphs k) := by
  have hrefl : ∀ (s : Option GlyphStateInCache), stepOK s s := by
    intro s
    rcases s with _ | st
    · trivial
    · cases st <;> simp [stepOK]
  cases op with
  | bgStep =>
    simp only [applyOp, TextHandler.bgStep] at h
    rcases hq : th.bgQueue with _ | ⟨cmd, rest⟩
    · rw [hq] at h
      simp only [Option.some.injEq] at h
      rw [← h]; exact hrefl _
    · rw [hq] at h
      cases cmd with
      | addFace fs =>
        simp only [Option.some.injEq] at h
        rw [← h]; exact hrefl _
      | renderGlyph f g aw ah =>
        simp only [] at h
        rcases hface : th.bgFaces[f]? with _ | fs
        · rw [hface] at h; simp at h
        · rw [hface] at h
          simp only [] at h
          rcases hrend : fs.render_glyph g aw ah with _ | r
          · rw [hrend] at h
            simp only [Option.some.injEq] at h
            rw [← h]; exact hrefl _
          · rw [hrend] at h
            simp only [Option.some.injEq] at h
            rw [← h]; exact hrefl _
  | addFace fs =>
    simp only [applyOp, TextHandler.add_face, Option.some.injEq] at h
    rw [← h]; exact hrefl _
  | setRenderInBg b =>
    simp only [applyOp, TextHandler.set_render_in_background,
               Option.some.injEq] at h
    rw [← h]; exact hrefl _
  | getGlyph env f g =>
    simp only [applyOp, Option.map_eq_some'] at h
    obtain ⟨⟨res, th2, ev⟩, hrun, hth⟩ := h
    simp only at hth
    subst hth
    unfold TextHandler.get_glyph at hrun
    rcases hrec : reconcile env th.bgResults th.glyphs th.atlases
        with _ | ⟨⟨gs1, atl1, ev1⟩⟩
    · rw [hrec] at hrun; simp at hrun
    · rw [hrec] at hrun
      obtain ⟨ha, hb, -, -⟩ := reconcile_spec env th.bgResults _ _ _ _ _ hrec
      simp only at hrun
      rcases hl1 : lookupGlyph gs1 (f, g) with _ | st
      · rw [hl1] at hrun
        by_cases hbg : th.render_in_bg
        · rw [if_pos hbg] at hrun
          simp only [Option.some.injEq, Prod.mk.injEq] at hrun
          obtain ⟨-, hth2, -⟩ := hrun
          rw [← hth2]
          exact stepOK_insert_of_vacant th.glyphs gs1 (f, g) _ ha hb hl1 k
        · rw [if_neg hbg] at hrun
          rcases hface : th.faces[f]? with _ | fs
          · rw [hface] at hrun; simp at hrun
          · rw [hface] at hrun
            simp only [] at hrun
            rcases hrend : fs.render_glyph g env.atlas_w env.atlas_h
                with _ | r
            · rw [hrend] at hrun
              simp only [Option.some.injEq, Prod.mk.injEq] at hrun
              obtain ⟨-, hth2, -⟩ := hrun
              rw [← hth2]
              exact stepOK_insert_of_vacant th.glyphs gs1 (f, g) _ ha hb hl1 k
            · rw [hrend] at hrun
              simp only [] at hrun
              rcases hput : put_into_atlas env (f, g) atl1
                  env.atlas_w env.atlas_h r with ⟨pr, pev⟩
              rw [hput] at hrun
              cases pr with
              | crash => simp at hrun
              | ok a c atl2 =>
                simp only [Option.some.injEq, Prod.mk.injEq] at hrun
                obtain ⟨-, hth2, -⟩ := hrun
                rw [← hth2]
                exact stepOK_insert_of_vacant th.glyphs gs1 (f, g) _
                  ha hb hl1 k
              | err e0 atl2 =>
                simp only [Option.some.injEq, Prod.mk.injEq] at hrun
                obtain ⟨-, hth2, -⟩ := hrun
                rw [← hth2]
                exact stepOK_insert_of_vacant th.glyphs gs1 (f, g) _
                  ha hb hl1 k
      · rw [hl1] at hrun
        simp only [Option.some.injEq, Prod.mk.injEq] at hrun
        obtain ⟨-, hth2, -⟩ := hrun
        rw [← hth2]
        exact ha k

/-- C2 witness: the first `get_glyph` call on a fresh background-mode
handler moves key `(0, 0)` from absent to `Pending`, a legal forward
step. -/
theorem cache_entry_forward_only_witness :
    stepOK (lookupGlyph thB.glyphs (0, 0)) (lookupGlyph thB1.glyphs (0, 0)) :=
  cache_entry_forward_only thB (.getGlyph envTriv 0 0) thB1 rfl (0, 0)

/-- C1: once a key is `Present(atlas, coords)` in the cache, any
`get_glyph` call for that key (with any handler) returns
`Ok(Some(atlas, coords))` with the identical pair, leaves the entry
unchanged, and performs no rasterization and no atlas-handler call for
that key. -/
theorem get_glyph_idempotent_present
    (env : HandlerEnv) (th : TextHandler) (f g a c : Nat)
    (res : Except Nat (Option (Nat × Nat))) (th' : TextHandler)
    (ev : List Event)
    (hpre : lookupGlyph th.glyphs (f, g) = some (.present a c))
    (hrun : th.get_glyph env f g = some (res, th', ev)) :
    res = .ok (some (a, c)) ∧
    lookupGlyph th'.glyphs (f, g) = some (.present a c) ∧
    ev.filter (fun e => decide (Event.key e = (f, g))) = [] := by
  unfold TextHandler.get_glyph at hrun
  rcases hrec : reconcile env th.bgResults th.glyphs th.atlases
      with _ | ⟨⟨gs1, atl1, ev1⟩⟩
  · rw [hrec] at hrun; simp at hrun
  · rw [hrec] at hrun
    obtain ⟨-, -, hc, -⟩ := reconcile_spec env th.bgResults _ _ _ _ _ hrec
    obtain ⟨heq, hnoev⟩ := hc (f, g) (by rw [hpre]; simp)
    rw [hpre] at heq
    simp only at hrun
    rw [heq] at hrun
    simp only [Option.some.injEq, Prod.mk.injEq] at hrun
    obtain ⟨hres, hth2, hev⟩ := hrun
    refine ⟨hres.symm, ?_, ?_⟩
    · rw [← hth2, heq]
    · rw [← hev, List.filter_eq_nil_iff]
      intro e he
      simpa using hnoev e he

/-- C1 witness: on a state whose key `(0, 0)` is `Present(5, 7)`, the
call returns `Ok(Some(5, 7))`, keeps the entry, and performs no work for
the key. -/
theorem get_glyph_idempotent_present_witness :
    (Except.ok (some (5, 7)) : Except Nat (Option (Nat × Nat)))
        = .ok (some (5, 7)) ∧
    lookupGlyph thPresent.glyphs (0, 0) = some (.present 5 7) ∧
    List.filter (fun e => decide (Event.key e = (0, 0)))
        ([] : List Event) = [] :=
  get_glyph_idempotent_present envTriv thPresent 0 0 5 7
    (.ok (some (5, 7))) thPresent [] rfl rfl

theorem jobsFor_append (q q' : List BgCmd) (k : Nat × Nat) :
    jobsFor (q ++ q') k = jobsFor q k + jobsFor q' k := by
  induction q with
  | nil => simp [jobsFor]
  | cons c rest ih =>
    cases c <;> simp [jobsFor, ih] <;> omega

theorem resultsFor_append (l l' : List RasterResult) (k : Nat × Nat) :
    resultsFor (l ++ l') k = resultsFor l k + resultsFor l' k := by
  induction l with
  | nil => simp [resultsFor]
  | cons r rest ih => simp [resultsFor, ih]; omega

theorem bginv_after_drain (th : TextHandler) (gs1 : GlyphMap)
    (hinv : BgInv th)
    (hb : ∀ k, lookupGlyph gs1 k = none ↔ lookupGlyph th.glyphs k = none)
    (hd : ∀ k, resultsFor th.bgResults k = 0 →
      lookupGlyph gs1 k = lookupGlyph th.glyphs k)
    (k : Nat × Nat) :
    jobsFor th.bgQueue k ≤ 1 ∧
    (1 ≤ jobsFor th.bgQueue k → lookupGlyph gs1 k = some .pending) := by
  obtain ⟨h1, h2⟩ := hinv k
  unfold Inflight at h1 h2
  refine ⟨by omega, fun hj => ?_⟩
  have hres0 : resultsFor th.bgResults k = 0 := by omega
  rw [hd k hres0]
  exact h2 (by omega)

theorem bginv_vacant_nojob (th : TextHandler) (gs1 : GlyphMap)
    (key : Nat × Nat) (hinv : BgInv th)
    (hb : ∀ k, lookupGlyph gs1 k = none ↔ lookupGlyph th.glyphs k = none)
    (hd : ∀ k, resultsFor th.bgResults k = 0 →
      lookupGlyph gs1 k = lookupGlyph th.glyphs k)
    (hvac : lookupGlyph gs1 key = none) :
    jobsFor th.bgQueue key = 0 := by
  by_contra hne
  have hj : 1 ≤ jobsFor th.bgQueue key := by omega
  have := (bginv_after_drain th gs1 hinv hb hd key).2 hj
  rw [hvac] at this
  exact Option.noConfusion this

theorem bginv_insert_vacant (th : TextHandler) (gs1 : GlyphMap)
    (key : Nat × Nat) (v : GlyphStateInCache)
    (hinv : BgInv th)
    (hb : ∀ k, lookupGlyph gs1 k = none ↔ lookupGlyph th.glyphs k = none)
    (hd : ∀ k, resultsFor th.bgResults k = 0 →
      lookupGlyph gs1 k = lookupGlyph th.glyphs k)
    (hvac : lookupGlyph gs1 key = none) (k : Nat × Nat) (hkk : k ≠ key) :
    jobsFor th.bgQueue k ≤ 1 ∧
    (1 ≤ jobsFor th.bgQueue k →
      lookupGlyph (insertGlyph gs1 key v) k = some .pending) := by
  obtain ⟨h1, h2⟩ := bginv_after_drain th gs1 hinv hb hd k
  exact ⟨h1, fun hj => by rw [lookup_insert_ne gs1 key k v hkk]; exact h2 hj⟩

/-- C8: the at-most-one-job-in-flight protocol.  `BgInv` — each key has
at most one background `RenderGlyph` job in flight (queued or published
but undrained), and any key with a job in flight is marked `Pending` —
holds initially and is preserved by every operation: `get_glyph` inserts
`Pending` synchronously when it dispatches, so a second request for the
same key observes `Pending` (or a settled state) and dispatches no
duplicate job. -/
theorem bg_single_job_in_flight :
    BgInv TextHandler.init ∧
    (∀ (th : TextHandler) (op : Op) (th' : TextHandler),
      BgInv th → applyOp th op = some th' → BgInv th') := by
  constructor
  · intro k
    simp [BgInv, Inflight, jobsFor, resultsFor, TextHandler.init, lookupGlyph]
  · intro th op th' hinv h
    cases op with
    | setRenderInBg b =>
      simp only [applyOp, TextHandler.set_render_in_background,
                 Option.some.injEq] at h
      intro k
      obtain ⟨h1, h2⟩ := hinv k
      rw [← h]
      exact ⟨h1, h2⟩
    | addFace fs =>
      simp only [applyOp, TextHandler.add_face, Option.some.injEq] at h
      intro k
      obtain ⟨h1, h2⟩ := hinv k
      unfold Inflight at h1 h2 ⊢
      rw [← h]
      simp only [jobsFor_append, jobsFor]
      constructor
      · simpa using h1
      · intro hge
        simpa using h2 (by simpa using hge)
    | bgStep =>
      simp only [applyOp, TextHandler.bgStep] at h
      rcases hq : th.bgQueue with _ | ⟨cmd, rest⟩
      · rw [hq] at h
        simp only [Option.some.injEq] at h
        rw [← h]; exact hinv
      · rw [hq] at h
        cases cmd with
        | addFace fs =>
          simp only [Option.some.injEq] at h
          intro k
          obtain ⟨h1, h2⟩ := hinv k
          unfold Inflight at h1 h2 ⊢
          rw [hq] at h1 h2
          simp only [jobsFor] at h1 h2
          rw [← h]
          exact ⟨h1, h2⟩
        | renderGlyph f g aw ah =>
          simp only [] at h
          rcases hface : th.bgFaces[f]? with _ | fs
          · rw [hface] at h; simp at h
          · rw [hface] at h
            simp only [] at h
            rcases hrend : fs.render_glyph g aw ah with _ | r
            · rw [hrend] at h
              simp only [Option.some.injEq] at h
              intro k
              obtain ⟨h1, h2⟩ := hinv k
              unfold Inflight at h1 h2 ⊢
              rw [hq] at h1 h2
              simp only [jobsFor] at h1 h2
              rw [← h]
              simp only []
              constructor
              · omega
              · intro hge
                exact h2 (by omega)
            · rw [hrend] at h
              simp only [Option.some.injEq] at h
              intro k
              obtain ⟨h1, h2⟩ := hinv k
              unfold Inflight at h1 h2 ⊢
              rw [hq] at h1 h2
              simp only [jobsFor] at h1 h2
              rw [← h]
              simp only [resultsFor_append, resultsFor]
              constructor
              · omega
              · intro hge
                exact h2 (by omega)
    | getGlyph env f g =>
      simp only [applyOp, Option.map_eq_some'] at h
      obtain ⟨⟨res, th2, ev⟩, hrun, hth⟩ := h
      simp only at hth
      subst hth
      unfold TextHandler.get_glyph at hrun
      rcases hrec : reconcile env th.bgResults th.glyphs th.atlases
          with _ | ⟨⟨gs1, atl1, ev1⟩⟩
      · rw [hrec] at hrun; simp at hrun
      · rw [hrec] at hrun
        obtain ⟨-, hb, -, hd⟩ :=
          reconcile_spec env th.bgResults _ _ _ _ _ hrec
        simp only at hrun
        rcases hl1 : lookupGlyph gs1 (f, g) with _ | st
        · rw [hl1] at hrun
          by_cases hbg : th.render_in_bg
          · rw [if_pos hbg] at hrun
            simp only [Option.some.injEq, Prod.mk.injEq] at hrun
            obtain ⟨-, hth2, -⟩ := hrun
            rw [← hth2]
            intro k
            unfold Inflight
            simp only [jobsFor_append, jobsFor, resultsFor]
            by_cases hkk : k = (f, g)
            · have hz := bginv_vacant_nojob th gs1 (f, g) hinv hb hd hl1
              rw [hkk]
              refine ⟨by simp; omega, fun _ => ?_⟩
              exact lookup_insert_self gs1 (f, g) .pending
            · obtain ⟨h1, h2⟩ :=
                bginv_insert_vacant th gs1 (f, g) .pending hinv hb hd hl1
                  k hkk
              have hne : ¬ ((f, g) = k) := fun e => hkk e.symm
              simp only [if_neg hne]
              exact ⟨by omega, fun hge => h2 (by omega)⟩
          · rw [if_neg hbg] at hrun
            rcases hface : th.faces[f]? with _ | fs
            · rw [hface] at hrun; simp at hrun
            · rw [hface] at hrun
              simp only [] at hrun
              have hinsert : ∀ (v : GlyphStateInCache) (atl2 : List AtlasState),
                  BgInv { th with glyphs := insertGlyph gs1 (f, g) v,
                                  atlases := atl2, bgResults := [] } := by
                intro v atl2 k
                unfold Inflight
                simp only [resultsFor]
                by_cases hkk : k = (f, g)
                · have hz := bginv_vacant_nojob th gs1 (f, g) hinv hb hd hl1
                  rw [hkk]
                  refine ⟨by omega, fun hge => absurd hge (by omega)⟩
                · obtain ⟨h1, h2⟩ :=
                    bginv_insert_vacant th gs1 (f, g) v hinv hb hd hl1 k hkk
                  exact ⟨by omega, fun hge => h2 (by omega)⟩
              rcases hrend : fs.render_glyph g env.atlas_w env.atlas_h
                  with _ | r
              · rw [hrend] at hrun
                simp only [Option.some.injEq, Prod.mk.injEq] at hrun
                obtain ⟨-, hth2, -⟩ := hrun
                rw [← hth2]
                exact hinsert .null atl1
              · rw [hrend] at hrun
                simp only [] at hrun
                rcases hput : put_into_atlas env (f, g) atl1
                    env.atlas_w env.atlas_h r with ⟨pr, pev⟩
                rw [hput] at hrun
                cases pr with
                | crash => simp at hrun
                | ok a c atl2 =>
                  simp only [Option.some.injEq, Prod.mk.injEq] at hrun
                  obtain ⟨-, hth2, -⟩ := hrun
                  rw [← hth2]
                  exact hinsert (.present a c) atl2
                | err e0 atl2 =>
                  simp only [Option.some.injEq, Prod.mk.injEq] at hrun
                  obtain ⟨-, hth2, -⟩ := hrun
                  rw [← hth2]
                  exact hinsert .null atl2
        · rw [hl1] at hrun
          simp only [Option.some.injEq, Prod.mk.injEq] at hrun
          obtain ⟨-, hth2, -⟩ := hrun
          rw [← hth2]
          intro k
          unfold Inflight
          simp only [resultsFor]
          obtain ⟨h1, h2⟩ := bginv_after_drain th gs1 hinv hb hd k
          exact ⟨by omega, fun hge => h2 (by omega)⟩

/-- C8 witness: the invariant holds on the fresh state `thB` and is
preserved by the first background-mode `get_glyph` call, which dispatches
exactly one job and marks the key `Pending`. -/
theorem bg_single_job_in_flight_witness : BgInv thB ∧ BgInv thB1 := by
  have hB : BgInv thB := by
    intro k
    simp [BgInv, Inflight, jobsFor, resultsFor, thB, lookupGlyph]
  exact ⟨hB, bg_single_job_in_flight.2 thB (.getGlyph envTriv 0 0) thB1 hB rfl⟩

/-- C3 counterexample: with background rendering enabled, requesting a
no-outline glyph and letting the worker process the job leaves the key
`Pending` forever — it is never cached as `Failed` (bg.rs:52 publishes
nothing on a no-shape result, so reconciliation never settles the
entry), contradicting the claim that the no-shape key is cached as
`Failed` in both modes. -/
theorem no_shape_bg_stays_pending_counterexample :
    ((applyOp thB (.getGlyph envTriv 0 0)).bind
      (fun t1 => (applyOp t1 .bgStep).bind
        (fun t2 => (applyOp t2 (.getGlyph envTriv 0 0)).map
          (fun t3 => lookupGlyph t3.glyphs (0, 0))))) =
      some (some .pending) ∧
    ((applyOp thB (.getGlyph envTriv 0 0)).bind
      (fun t1 => (applyOp t1 .bgStep).bind
        (fun t2 => (applyOp t2 (.getGlyph envTriv 0 0)).map
          (fun t3 => lookupGlyph t3.glyphs (0, 0))))) ≠
      some (some .null) := by
  constructor
  · decide
  · decide

/-- C3 (amended): for a glyph with no outline, in synchronous mode the
key is cached permanently as `Failed` (`Null`), `get_glyph` returns
`Ok(None)`, and a subsequent call for the key performs no rasterization
and no handler call for it; in background mode `get_glyph` likewise
returns `Ok(None)` and a subsequent call (after the worker has processed
the job, publishing nothing) performs no work for the key and dispatches
no new job — but the entry remains `Pending` forever rather than being
cached as `Failed`. -/
theorem no_shape_glyph_behaviour
    (env env' : HandlerEnv) (th : TextHandler) (fs : FaceState) (f g : Nat)
    (hface : th.faces[f]? = some fs)
    (hbgface : th.bgFaces[f]? = some fs)
    (hnoshape : fs.glyph_bbox g = none)
    (hvac : lookupGlyph th.glyphs (f, g) = none)
    (hres : th.bgResults = [])
    (hq : th.bgQueue = []) :
    (th.render_in_bg = false →
      ((th.get_glyph env f g).map
        (fun x => (x.1, lookupGlyph x.2.1.glyphs (f, g))) =
        some (.ok none, some .null)) ∧
      (((th.get_glyph env f g).bind
          (fun x => x.2.1.get_glyph env' f g)).map
        (fun y => (y.1, lookupGlyph y.2.1.glyphs (f, g),
                   y.2.2.filter (fun e => decide (Event.key e = (f, g))))) =
        some (.ok none, some .null, []))) ∧
    (th.render_in_bg = true →
      ((th.get_glyph env f g).map
        (fun x => (x.1, lookupGlyph x.2.1.glyphs (f, g))) =
        some (.ok none, some .pending)) ∧
      ((((th.get_glyph env f g).bind (fun x => x.2.1.bgStep)).bind
          (fun t2 => (t2.get_glyph env' f g).map
            (fun y => (y.1, lookupGlyph y.2.1.glyphs (f, g),
                       y.2.2.filter (fun e => decide (Event.key e = (f, g))),
                       jobsFor y.2.1.bgQueue (f, g))))) =
        some (.ok none, some .pending, [], 0))) := by
  refine ⟨fun hsync => ?_, fun hbg => ?_⟩
  · have hcall1 : th.get_glyph env f g =
        some (.ok none,
              { th with glyphs := insertGlyph th.glyphs (f, g) .null,
                        bgResults := [] },
              [.getAtlasSize (f, g), .rasterize (f, g)]) := by
      unfold TextHandler.get_glyph
      rw [hres]
      simp [reconcile, hvac, hsync, hface, FaceState.render_glyph, hnoshape]
    have hlook1 : lookupGlyph (insertGlyph th.glyphs (f, g) .null) (f, g)
        = some .null := lookup_insert_self _ _ _
    have hcall2 : TextHandler.get_glyph env'
        { th with glyphs := insertGlyph th.glyphs (f, g) .null,
                  bgResults := [] } f g =
        some (.ok none,
              { th with glyphs := insertGlyph th.glyphs (f, g) .null,
                        bgResults := [] }, []) := by
      unfold TextHandler.get_glyph
      simp [reconcile, hlook1]
    constructor
    · rw [hcall1]
      simp [hlook1]
    · rw [hcall1]
      simp only [Option.some_bind]
      rw [hcall2]
      simp [hlook1]
  · have hcall1 : th.get_glyph env f g =
        some (.ok none,
              { th with glyphs := insertGlyph th.glyphs (f, g) .pending,
                        bgQueue := th.bgQueue ++
                          [.renderGlyph f g env.atlas_w env.atlas_h],
                        bgResults := [] },
              [.getAtlasSize (f, g)]) := by
      unfold TextHandler.get_glyph
      rw [hres]
      simp [reconcile, hvac, hbg]
    have hlook1 : lookupGlyph (insertGlyph th.glyphs (f, g) .pending) (f, g)
        = some .pending := lookup_insert_self _ _ _
    have hstep : TextHandler.bgStep
        { th with glyphs := insertGlyph th.glyphs (f, g) .pending,
                  bgQueue := th.bgQueue ++
                    [.renderGlyph f g env.atlas_w env.atlas_h],
                  bgResults := [] } =
        some { th with glyphs := insertGlyph th.glyphs (f, g) .pending,
                       bgQueue := [], bgResults := [] } := by
      unfold TextHandler.bgStep
      simp [hq, hbgface, FaceState.render_glyph, hnoshape]
    have hcall2 : TextHandler.get_glyph env'
        { th with glyphs := insertGlyph th.glyphs (f, g) .pending,
                  bgQueue := [], bgResults := [] } f g =
        some (.ok none,
              { th with glyphs := insertGlyph th.glyphs (f, g) .pending,
                        bgQueue := [], bgResults := [] }, []) := by
      unfold TextHandler.get_glyph
      simp [reconcile, hlook1]
    constructor
    · rw [hcall1]
      simp [hlook1]
    · rw [hcall1]
      simp only [Option.some_bind]
      rw [hstep]
      simp only [Option.some_bind]
      rw [hcall2]
      simp [hlook1, jobsFor]

/-- C3 witness: both branches of the amended claim, discharged at the
concrete no-outline fixture — the synchronous branch on `thBs`, the
background branch on `thB`. -/
theorem no_shape_glyph_behaviour_witness :
    (((thBs.get_glyph envTriv 0 0).map
        (fun x => (x.1, lookupGlyph x.2.1.glyphs (0, 0))) =
        some (.ok none, some .null)) ∧
      (((thBs.get_glyph envTriv 0 0).bind
          (fun x => x.2.1.get_glyph envTriv 0 0)).map
        (fun y => (y.1, lookupGlyph y.2.1.glyphs (0, 0),
                   y.2.2.filter (fun e => decide (Event.key e = (0, 0))))) =
        some (.ok none, some .null, []))) ∧
    (((thB.get_glyph envTriv 0 0).map
        (fun x => (x.1, lookupGlyph x.2.1.glyphs (0, 0))) =
        some (.ok none, some .pending)) ∧
      ((((thB.get_glyph envTriv 0 0).bind (fun x => x.2.1.bgStep)).bind
          (fun t2 => (t2.get_glyph envTriv 0 0).map
            (fun y => (y.1, lookupGlyph y.2.1.glyphs (0, 0),
                       y.2.2.filter (fun e => decide (Event.key e = (0, 0))),
                       jobsFor y.2.1.bgQueue (0, 0))))) =
        some (.ok none, some .pending, [], 0))) :=
  ⟨(no_shape_glyph_behaviour envTriv envTriv thBs noShapeFace 0 0
      rfl rfl rfl rfl rfl rfl).1 rfl,
   (no_shape_glyph_behaviour envTriv envTriv thB noShapeFace 0 0
      rfl rfl rfl rfl rfl rfl).2 rfl⟩

theorem fixtureFace_render_eval (aw ah : Nat) (haw : 36 ≤ aw)
    (hah : 49 ≤ ah) :
    fixtureFace.render_glyph 0 aw ah = some rFixture := by
  have h36 : (⌈(36 : ℚ)⌉ : Int) = 36 := by
    rw [Int.ceil_eq_iff] <;> norm_num
  have h49 : (⌈(244/5 : ℚ)⌉ : Int) = 49 := by
    rw [Int.ceil_eq_iff] <;> norm_num
  have ht36 : (36 : Int).toNat = 36 := rfl
  have ht49 : (49 : Int).toNat = 49 := rfl
  simp only [fixtureFace, rFixture, FaceState.render_glyph, if_pos rfl]
  norm_num [h36, h49, ht36, ht49]
  omega

theorem render_glyph_dims_le (fs : FaceState) (g aw ah : Nat)
    (r : RenderedGlyph) (hrender : fs.render_glyph g aw ah = some r) :
    r.sdf_width_int ≤ aw ∧ r.sdf_height_int ≤ ah := by
  unfold FaceState.render_glyph at hrender
  cases hbb : fs.glyph_bbox g with
  | none => rw [hbb] at hrender; exact Option.noConfusion hrender
  | some bbox =>
    rw [hbb] at hrender
    simp only [Option.some.injEq] at hrender
    rw [← hrender]
    exact ⟨Nat.min_le_right _ _, Nat.min_le_right _ _⟩

theorem fresh_bin_fit (handle aw ah w h : Nat) (hw : w ≤ aw)
    (hh : h ≤ ah) :
    (AtlasState.new handle aw ah).attempt_fit w h =
      some (0, 0, ⟨handle, ⟨aw, ah, w, 0, h⟩⟩) := by
  unfold AtlasState.new AtlasState.attempt_fit Packer.pack
  simp [hw, hh]

theorem put_no_crash (env : HandlerEnv) (key : Nat × Nat)
    (atlases : List AtlasState) (aw ah : Nat) (r : RenderedGlyph)
    (hw : r.sdf_width_int ≤ aw) (hh : r.sdf_height_int ≤ ah) :
    (put_into_atlas env key atlases aw ah r).1 ≠ PutResult.crash := by
  unfold put_into_atlas
  split
  · split <;> simp
  · split
    · simp
    · split
      · split <;> simp
      · rename_i hfit
        rw [fresh_bin_fit _ aw ah _ _ hw hh] at hfit
        exact Option.noConfusion hfit

/-- C4: synchronous path, failing handler: if the placement/upload of the
rendered glyph fails with handler error `e`, the call returns `Err(e)`,
the entry is set `Failed` (`Null`), and a subsequent call for the key
(with any handler) returns `Ok(None)` performing no rasterization and no
handler call for that key. -/
theorem sync_handler_failure
    (env env' : HandlerEnv) (th : TextHandler) (fs : FaceState)
    (f g e : Nat) (r : RenderedGlyph) (atl' : List AtlasState)
    (evP : List Event)
    (hsync : th.render_in_bg = false)
    (hres : th.bgResults = [])
    (hvac : lookupGlyph th.glyphs (f, g) = none)
    (hface : th.faces[f]? = some fs)
    (hrender : fs.render_glyph g env.atlas_w env.atlas_h = some r)
    (hput : put_into_atlas env (f, g) th.atlases env.atlas_w env.atlas_h r
              = (.err e atl', evP)) :
    ((th.get_glyph env f g).map
      (fun x => (x.1, lookupGlyph x.2.1.glyphs (f, g))) =
      some (.error e, some .null)) ∧
    (((th.get_glyph env f g).bind (fun x => x.2.1.get_glyph env' f g)).map
      (fun y => (y.1, lookupGlyph y.2.1.glyphs (f, g),
                 y.2.2.filter (fun e2 => decide (Event.key e2 = (f, g))))) =
      some (.ok none, some .null, [])) := by
  have hcall1 : th.get_glyph env f g =
      some (.error e,
            { th with glyphs := insertGlyph th.glyphs (f, g) .null,
                      atlases := atl', bgResults := [] },
            [.getAtlasSize (f, g), .rasterize (f, g)] ++ evP) := by
    unfold TextHandler.get_glyph
    rw [hres]
    simp [reconcile, hvac, hsync, hface, hrender, hput]
  have hlook1 : lookupGlyph (insertGlyph th.glyphs (f, g) .null) (f, g)
      = some .null := lookup_insert_self _ _ _
  have hcall2 : TextHandler.get_glyph env'
      { th with glyphs := insertGlyph th.glyphs (f, g) .null,
                atlases := atl', bgResults := [] } f g =
      some (.ok none,
            { th with glyphs := insertGlyph th.glyphs (f, g) .null,
                      atlases := atl', bgResults := [] }, []) := by
    unfold TextHandler.get_glyph
    simp [reconcile, hlook1]
  constructor
  · rw [hcall1]
    simp [hlook1]
  · rw [hcall1]
    simp only [Option.some_bind]
    rw [hcall2]
    simp [hlook1]

/-- C4 witness: on the synchronous fixture state with a handler whose
`new_atlas` fails with error 3, the first call returns `Err(3)`, the
entry becomes `Failed`, and the second call returns `Ok(None)` with no
work for the key. -/
theorem sync_handler_failure_witness :
    ((thFixS.get_glyph envErr 0 0).map
      (fun x => (x.1, lookupGlyph x.2.1.glyphs (0, 0))) =
      some (.error 3, some .null)) ∧
    (((thFixS.get_glyph envErr 0 0).bind
        (fun x => x.2.1.get_glyph envErr 0 0)).map
      (fun y => (y.1, lookupGlyph y.2.1.glyphs (0, 0),
                 y.2.2.filter (fun e2 => decide (Event.key e2 = (0, 0))))) =
      some (.ok none, some .null, [])) :=
  sync_handler_failure envErr envErr thFixS fixtureFace 0 0 3 rFixture
    [] [.newAtlas (0, 0)] rfl rfl rfl rfl
    (fixtureFace_render_eval 64 64 (by decide) (by decide)) rfl

/-- C5: a handler `new_atlas` failure when no existing bin fits
propagates the error and appends no bin (the bin list is returned
unchanged); in particular, on the very first glyph request (empty bin
list, synchronous mode) `get_glyph` returns the failure to the caller and
the `TextHandler` still has zero atlas bins. -/
theorem new_atlas_failure_no_bin
    (env env2 : HandlerEnv) (key : Nat × Nat) (atlases : List AtlasState)
    (aw ah : Nat) (r : RenderedGlyph) (e : Nat)
    (th : TextHandler) (fs : FaceState) (f g : Nat) (r2 : RenderedGlyph) :
    (place_first_fit atlases r.sdf_width_int r.sdf_height_int = none →
     env.new_atlas = .error e →
     put_into_atlas env key atlases aw ah r
       = (.err e atlases, [.newAtlas key])) ∧
    (th.render_in_bg = false → th.bgResults = [] → th.atlases = [] →
     lookupGlyph th.glyphs (f, g) = none → th.faces[f]? = some fs →
     fs.render_glyph g env2.atlas_w env2.atlas_h = some r2 →
     env2.new_atlas = .error e →
     (th.get_glyph env2 f g).map (fun x => (x.1, x.2.1.atlases)) =
       some (.error e, [])) := by
  constructor
  · intro hpf hna
    unfold put_into_atlas
    rw [hpf, hna]
  · intro hsync hres hatl hvac hface hrender hna
    have hput : put_into_atlas env2 (f, g) th.atlases
        env2.atlas_w env2.atlas_h r2 = (.err e th.atlases, [.newAtlas (f, g)]) := by
      unfold put_into_atlas
      rw [hatl]
      simp only [place_first_fit]
      rw [hna]
    have hcall1 : th.get_glyph env2 f g =
        some (.error e,
              { th with glyphs := insertGlyph th.glyphs (f, g) .null,
                        atlases := th.atlases, bgResults := [] },
              [.getAtlasSize (f, g), .rasterize (f, g)] ++ [.newAtlas (f, g)]) := by
      unfold TextHandler.get_glyph
      rw [hres]
      simp [reconcile, hvac, hsync, hface, hrender, hput]
    rw [hcall1]
    simp [hatl]

/-- C5 witness: the first request on the empty-atlas synchronous fixture
with failing allocation leaves zero bins and returns `Err(3)`, and the
put itself returns the error without appending a bin. -/
theorem new_atlas_failure_no_bin_witness :
    (put_into_atlas envErr (0, 0) [] 64 64 rFixture
       = (.err 3 [], [.newAtlas (0, 0)])) ∧
    ((thFixS.get_glyph envErr 0 0).map (fun x => (x.1, x.2.1.atlases)) =
       some (.error 3, [])) :=
  ⟨(new_atlas_failure_no_bin envErr envErr (0, 0) [] 64 64 rFixture 3
      thFixS fixtureFace 0 0 rFixture).1 rfl rfl,
   (new_atlas_failure_no_bin envErr envErr (0, 0) [] 64 64 rFixture 3
      thFixS fixtureFace 0 0 rFixture).2 rfl rfl rfl rfl rfl
     (fixtureFace_render_eval 64 64 (by decide) (by decide)) rfl⟩

/-- C6: the raster dimensions produced by `render_glyph` are capped at
the atlas dimensions, a rectangle of those dimensions always fits in a
freshly created empty bin of the declared atlas dimensions, and
consequently `put_into_atlas` with matching atlas dimensions never
reaches the `unreachable!()` branch. -/
theorem capped_dims_fit_fresh_bin
    (fs : FaceState) (g aw ah : Nat) (r : RenderedGlyph)
    (handle : Nat) (env : HandlerEnv) (key : Nat × Nat)
    (atlases : List AtlasState)
    (hrender : fs.render_glyph g aw ah = some r) :
    r.sdf_width_int ≤ aw ∧ r.sdf_height_int ≤ ah ∧
    (AtlasState.new handle aw ah).attempt_fit
        r.sdf_width_int r.sdf_height_int ≠ none ∧
    (put_into_atlas env key atlases aw ah r).1 ≠ PutResult.crash := by
  obtain ⟨hw, hh⟩ := render_glyph_dims_le fs g aw ah r hrender
  refine ⟨hw, hh, ?_, put_no_crash env key atlases aw ah r hw hh⟩
  rw [fresh_bin_fit handle aw ah _ _ hw hh]
  exact Option.noConfusion

/-- C6 witness: the fixture renders to a 36×49 raster in a 64×64 atlas;
it fits a fresh 64×64 bin and the put cannot crash. -/
theorem capped_dims_fit_fresh_bin_witness :
    rFixture.sdf_width_int ≤ 64 ∧ rFixture.sdf_height_int ≤ 64 ∧
    (AtlasState.new 0 64 64).attempt_fit
        rFixture.sdf_width_int rFixture.sdf_height_int ≠ none ∧
    (put_into_atlas envTriv (0, 0) [] 64 64 rFixture).1 ≠ PutResult.crash :=
  capped_dims_fit_fresh_bin fixtureFace 0 64 64 rFixture 0 envTriv (0, 0) []
    (fixtureFace_render_eval 64 64 (by decide) (by decide))

/-- C7: the spec §8 numeric fixture.  With `units_per_em = 1000`, glyph
bbox `(100, 0, 600, 700)`, `border_texels = 4`,
`texels_per_em_x = texels_per_em_y = 64` and an atlas of at least 36×49
texels, `render_glyph` computes `sdf_width = 36 = ⌈32 + 4⌉`,
`sdf_height = 49 = ⌈44.8 + 4⌉` and the render bounding box equal to the
font-unit bbox in em units expanded on each side by half of
`(sdf_dim − glyph_dim)` texels converted back to em units. -/
theorem fixture_geometry
    (aw ah : Nat) (haw : 36 ≤ aw) (hah : 49 ≤ ah) :
    fixtureFace.render_glyph 0 aw ah = some rFixture ∧
    rFixture.sdf_width_int = 36 ∧ rFixture.sdf_height_int = 49 ∧
    rFixture.render_x_min
      = (100 : ℚ)/1000 - ((36 : ℚ) - 500 * 64/1000)/64 * (1/2) ∧
    rFixture.render_y_min
      = (0 : ℚ)/1000 - ((49 : ℚ) - 700 * 64/1000)/64 * (1/2) ∧
    rFixture.render_x_max
      = (600 : ℚ)/1000 + ((36 : ℚ) - 500 * 64/1000)/64 * (1/2) ∧
    rFixture.render_y_max
      = (700 : ℚ)/1000 + ((49 : ℚ) - 700 * 64/1000)/64 * (1/2) := by
  refine ⟨fixtureFace_render_eval aw ah haw hah, rfl, rfl, ?_, ?_, ?_, ?_⟩
    <;> simp only [rFixture] <;> norm_num

/-- C7 witness: the fixture at the minimal atlas size 36×49. -/
theorem fixture_geometry_witness :
    fixtureFace.render_glyph 0 36 49 = some rFixture ∧
    rFixture.sdf_width_int = 36 ∧ rFixture.sdf_height_int = 49 ∧
    rFixture.render_x_min
      = (100 : ℚ)/1000 - ((36 : ℚ) - 500 * 64/1000)/64 * (1/2) ∧
    rFixture.render_y_min
      = (0 : ℚ)/1000 - ((49 : ℚ) - 700 * 64/1000)/64 * (1/2) ∧
    rFixture.render_x_max
      = (600 : ℚ)/1000 + ((36 : ℚ) - 500 * 64/1000)/64 * (1/2) ∧
    rFixture.render_y_max
      = (700 : ℚ)/1000 + ((49 : ℚ) - 700 * 64/1000)/64 * (1/2) :=
  fixture_geometry 36 49 (by decide) (by decide)

/-- C9: background-mode refinement.  For a new key with an outline, the
first background-mode call returns `Ok(None)` after dispatching the job;
once the worker has processed it, the next call resolves the key and
returns `Ok(Some(a, c))`; and synchronous mode on the same state and
handler produces the same handler-visible upload: both runs pass the
identical put event list `evP`, which contains the `add_to_atlas` call
with exactly the rendered bitmap and render bounding box of `r`. -/
theorem bg_refines_sync
    (env : HandlerEnv) (th : TextHandler) (fs : FaceState)
    (f g a c : Nat) (r : RenderedGlyph) (atl' : List AtlasState)
    (evP : List Event)
    (hbg : th.render_in_bg = true)
    (hq : th.bgQueue = []) (hres : th.bgResults = [])
    (hvac : lookupGlyph th.glyphs (f, g) = none)
    (hface : th.faces[f]? = some fs)
    (hbgface : th.bgFaces[f]? = some fs)
    (hrender : fs.render_glyph g env.atlas_w env.atlas_h = some r)
    (hput : put_into_atlas env (f, g) th.atlases env.atlas_w env.atlas_h r
              = (.ok a c atl', evP)) :
    ((th.get_glyph env f g).map (fun x => x.1) = some (.ok none)) ∧
    ((((th.get_glyph env f g).bind (fun x => x.2.1.bgStep)).bind
        (fun t2 => (t2.get_glyph env f g).map (fun y => (y.1, y.2.2)))) =
      some (.ok (some (a, c)), .getAtlasSize (f, g) :: evP)) ∧
    (((th.set_render_in_background false).get_glyph env f g).map
        (fun y => (y.1, y.2.2)) =
      some (.ok (some (a, c)),
            [.getAtlasSize (f, g), .rasterize (f, g)] ++ evP)) ∧
    (∃ x y, Event.addToAtlas (f, g) a
        r.render_x_min r.render_y_min r.render_x_max r.render_y_max
        x y r.sdf_width_int r.sdf_height_int r.bitmap ∈ evP) := by
  have hcall1 : th.get_glyph env f g =
      some (.ok none,
            { th with glyphs := insertGlyph th.glyphs (f, g) .pending,
                      bgQueue := th.bgQueue ++
                        [.renderGlyph f g env.atlas_w env.atlas_h],
                      bgResults := [] },
            [.getAtlasSize (f, g)]) := by
    unfold TextHandler.get_glyph
    rw [hres]
    simp [reconcile, hvac, hbg]
  have hstep : TextHandler.bgStep
      { th with glyphs := insertGlyph th.glyphs (f, g) .pending,
                bgQueue := th.bgQueue ++
                  [.renderGlyph f g env.atlas_w env.atlas_h],
                bgResults := [] } =
      some { th with glyphs := insertGlyph th.glyphs (f, g) .pending,
                     bgQueue := [], bgResults := [⟨f, g, r⟩] } := by
    unfold TextHandler.bgStep
    simp [hq, hbgface, hrender]
  have hlook1 : lookupGlyph (insertGlyph th.glyphs (f, g) .pending) (f, g)
      = some .pending := lookup_insert_self _ _ _
  have hlook2 : lookupGlyph (insertGlyph
      (insertGlyph th.glyphs (f, g) .pending) (f, g) (.present a c)) (f, g)
      = some (.present a c) := lookup_insert_self _ _ _
  have hcall2 : TextHandler.get_glyph env
      { th with glyphs := insertGlyph th.glyphs (f, g) .pending,
                bgQueue := [], bgResults := [⟨f, g, r⟩] } f g =
      some (.ok (some (a, c)),
            { th with glyphs := insertGlyph (insertGlyph th.glyphs (f, g) .pending) (f, g) (.present a c),
                      atlases := atl', bgQueue := [], bgResults := [] },
            .getAtlasSize (f, g) :: evP) := by
    unfold TextHandler.get_glyph
    simp [reconcile, hlook1, hput, hlook2]
  refine ⟨?_, ?_, ?_, put_into_atlas_ok_event env (f, g) th.atlases
    env.atlas_w env.atlas_h r a c atl' evP hput⟩
  · rw [hcall1]
    simp
  · rw [hcall1]
    simp only [Option.some_bind]
    rw [hstep]
    simp only [Option.some_bind]
    rw [hcall2]
    simp
  · unfold TextHandler.set_render_in_background TextHandler.get_glyph
    simp [reconcile, hres, hvac, hface, hrender, hput]

/-- C9 witness: the fixture face, rendered in the background and resolved
on the next call to atlas 0 at coordinates token 9, matching the
synchronous run's upload. -/
theorem bg_refines_sync_witness :
    ((thFix.get_glyph envTriv 0 0).map (fun x => x.1) = some (.ok none)) ∧
    ((((thFix.get_glyph envTriv 0 0).bind (fun x => x.2.1.bgStep)).bind
        (fun t2 => (t2.get_glyph envTriv 0 0).map (fun y => (y.1, y.2.2)))) =
      some (.ok (some (0, 9)), .getAtlasSize (0, 0) ::
        [.newAtlas (0, 0),
         .addToAtlas (0, 0) 0 (11/160) (-21/640) (101/160) (469/640)
           0 0 36 49 []])) ∧
    (((thFix.set_render_in_background false).get_glyph envTriv 0 0).map
        (fun y => (y.1, y.2.2)) =
      some (.ok (some (0, 9)),
            [.getAtlasSize (0, 0), .rasterize (0, 0)] ++
              [.newAtlas (0, 0),
               .addToAtlas (0, 0) 0 (11/160) (-21/640) (101/160) (469/640)
                 0 0 36 49 []])) ∧
    (∃ x y, Event.addToAtlas (0, 0) 0
        rFixture.render_x_min rFixture.render_y_min rFixture.render_x_max
        rFixture.render_y_max x y rFixture.sdf_width_int
        rFixture.sdf_height_int rFixture.bitmap ∈
        [Event.newAtlas (0, 0),
         Event.addToAtlas (0, 0) 0 (11/160) (-21/640) (101/160) (469/640)
           0 0 36 49 []]) :=
  bg_refines_sync envTriv thFix fixtureFace 0 0 0 9 rFixture
    [⟨0, ⟨64, 64, 36, 0, 49⟩⟩]
    [.newAtlas (0, 0),
     .addToAtlas (0, 0) 0 (11/160) (-21/640) (101/160) (469/640)
       0 0 36 49 []]
    rfl rfl rfl rfl rfl rfl
    (fixtureFace_render_eval 64 64 (by decide) (by decide)) rfl

/-- C10: every successful rasterization by `render_glyph` additionally
creates or overwrites `/tmp/thing.ppm` with a P6 header for the raster
dimensions followed by the rendered bitmap bytes, and panics (the
`unwrap` at lib.rs:231-233, modelled as `none`) when the file cannot be
created or written; a failed rasterization (no outline) writes nothing.
This side effect appears nowhere in the spec's interface contract
(spec §6 lists only the atlas-handler, parsing and rasterization
collaborators). -/
theorem ppm_side_effect (fs : FaceState) (g aw ah : Nat)
    (r : RenderedGlyph) :
    (fs.render_glyph g aw ah = some r →
      fs.ppm_write_effect true g aw ah =
        some [{ path := "/tmp/thing.ppm",
                header := "P6\n" ++ toString r.sdf_width_int ++ " "
                          ++ toString r.sdf_height_int ++ " 255\n",
                bytes := r.bitmap }] ∧
      fs.ppm_write_effect false g aw ah = none) ∧
    (fs.render_glyph g aw ah = none →
      ∀ b, fs.ppm_write_effect b g aw ah = some []) := by
  constructor
  · intro h
    unfold FaceState.ppm_write_effect
    rw [h]
    simp
  · intro h b
    unfold FaceState.ppm_write_effect
    rw [h]

/-- C10 witness: the fixture's successful rasterization writes the file
with a P6 header for 36 by 49 and its bitmap, with an unwritable
filesystem the model reports the unwrap crash, and the no-outline
fixture writes nothing. -/
theorem ppm_side_effect_witness :
    (fixtureFace.ppm_write_effect true 0 64 64 =
        some [{ path := "/tmp/thing.ppm",
                header := "P6\n" ++ toString rFixture.sdf_width_int ++ " "
                          ++ toString rFixture.sdf_height_int ++ " 255\n",
                bytes := rFixture.bitmap }] ∧
      fixtureFace.ppm_write_effect false 0 64 64 = none) ∧
    noShapeFace.ppm_write_effect true 0 64 64 = some [] :=
  ⟨(ppm_side_effect fixtureFace 0 64 64 rFixture).1
      (fixtureFace_render_eval 64 64 (by decide) (by decide)),
   (ppm_side_effect noShapeFace 0 64 64 rFixture).2 rfl true⟩

end PsiloText
